import Mathlib

/-!
A verification development for the NCM container decryption engine of
`ncm2mp3.py` (function `decrypt_ncm` and its helpers).  The Python source is
shallowly embedded: bytes are `Nat` values in `0..255` held in `List Nat`,
fallible stages return `Except NcmError`, and the external library
primitives the source calls (PyCryptodome AES-128-ECB and ARC4, the standard
library's `base64.b64decode`, UTF-8 codecs and `json.loads`) are modelled as
executable Lean functions following those libraries' documented semantics.
-/

set_option maxRecDepth 100000

namespace Ncm2Mp3

/-! ## Basic byte-list helpers -/

/-- Python slicing `data[a:a+n]` for non-negative `a`, `n`: silently truncates
at the end of the buffer and never fails. -/
def pySlice (data : List Nat) (a n : Nat) : List Nat :=
  (data.drop a).take n

/-- Python `bytes.startswith`: the first `pat.length` elements equal `pat`. -/
def startsWithB (pat xs : List Nat) : Bool :=
  decide (xs.take pat.length = pat)

/-- Python `bytes.lstrip(b'\x00')`: drop leading zero bytes. -/
def lstrip0 : List Nat → List Nat
  | [] => []
  | x :: t => if x = 0 then lstrip0 t else x :: t

/-- Python `bytes.rstrip(b'\x00')`: drop trailing zero bytes. -/
def rstrip0 (xs : List Nat) : List Nat :=
  (lstrip0 xs.reverse).reverse

/-- Python `bytes.strip(b'\x00')`: drop zero bytes at both ends. -/
def strip0 (xs : List Nat) : List Nat :=
  rstrip0 (lstrip0 xs)

/-- Python `bytes.find(pat)` / the indexed search loops of `decrypt_ncm`: index of the
first occurrence of `pat` as a contiguous segment, `none` when absent. -/
def findSubGo (pat : List Nat) : List Nat → Nat → Option Nat
  | [], i => if pat = [] then some i else none
  | x :: t, i =>
    if (x :: t).take pat.length = pat then some i else findSubGo pat t (i + 1)

/-- First occurrence of `pat` inside `xs` (`bytes.find` / the `in` operator). -/
def findSub (pat xs : List Nat) : Option Nat :=
  findSubGo pat xs 0

/-- XOR every byte with a fixed single-byte mask
(`bytes([b ^ MASK for b in data])`, lines 114 and 234 of the source). -/
def xorMask (mask : Nat) (xs : List Nat) : List Nat :=
  xs.map (fun b => b ^^^ mask)

/-! ## AES-128 (PyCryptodome `AES.new(key, AES.MODE_ECB)`)

The source delegates block decryption to PyCryptodome.  AES-128 is embedded
here in full (FIPS-197), byte-for-byte, so the development is executable; the
implementation is checked below against the FIPS-197 appendix C.1 vector. -/

/-- The AES forward S-box (FIPS-197 figure 7). -/
def sbox : List Nat := [
  99, 124, 119, 123, 242, 107, 111, 197, 48, 1, 103, 43, 254, 215, 171, 118,
  202, 130, 201, 125, 250, 89, 71, 240, 173, 212, 162, 175, 156, 164, 114, 192,
  183, 253, 147, 38, 54, 63, 247, 204, 52, 165, 229, 241, 113, 216, 49, 21,
  4, 199, 35, 195, 24, 150, 5, 154, 7, 18, 128, 226, 235, 39, 178, 117,
  9, 131, 44, 26, 27, 110, 90, 160, 82, 59, 214, 179, 41, 227, 47, 132,
  83, 209, 0, 237, 32, 252, 177, 91, 106, 203, 190, 57, 74, 76, 88, 207,
  208, 239, 170, 251, 67, 77, 51, 133, 69, 249, 2, 127, 80, 60, 159, 168,
  81, 163, 64, 143, 146, 157, 56, 245, 188, 182, 218, 33, 16, 255, 243, 210,
  205, 12, 19, 236, 95, 151, 68, 23, 196, 167, 126, 61, 100, 93, 25, 115,
  96, 129, 79, 220, 34, 42, 144, 136, 70, 238, 184, 20, 222, 94, 11, 219,
  224, 50, 58, 10, 73, 6, 36, 92, 194, 211, 172, 98, 145, 149, 228, 121,
  231, 200, 55, 109, 141, 213, 78, 169, 108, 86, 244, 234, 101, 122, 174, 8,
  186, 120, 37, 46, 28, 166, 180, 198, 232, 221, 116, 31, 75, 189, 139, 138,
  112, 62, 181, 102, 72, 3, 246, 14, 97, 53, 87, 185, 134, 193, 29, 158,
  225, 248, 152, 17, 105, 217, 142, 148, 155, 30, 135, 233, 206, 85, 40, 223,
  140, 161, 137, 13, 191, 230, 66, 104, 65, 153, 45, 15, 176, 84, 187, 22]

/-- The AES inverse S-box (FIPS-197 figure 14). -/
def invSbox : List Nat := [
  82, 9, 106, 213, 48, 54, 165, 56, 191, 64, 163, 158, 129, 243, 215, 251,
  124, 227, 57, 130, 155, 47, 255, 135, 52, 142, 67, 68, 196, 222, 233, 203,
  84, 123, 148, 50, 166, 194, 35, 61, 238, 76, 149, 11, 66, 250, 195, 78,
  8, 46, 161, 102, 40, 217, 36, 178, 118, 91, 162, 73, 109, 139, 209, 37,
  114, 248, 246, 100, 134, 104, 152, 22, 212, 164, 92, 204, 93, 101, 182, 146,
  108, 112, 72, 80, 253, 237, 185, 218, 94, 21, 70, 87, 167, 141, 157, 132,
  144, 216, 171, 0, 140, 188, 211, 10, 247, 228, 88, 5, 184, 179, 69, 6,
  208, 44, 30, 143, 202, 63, 15, 2, 193, 175, 189, 3, 1, 19, 138, 107,
  58, 145, 17, 65, 79, 103, 220, 234, 151, 242, 207, 206, 240, 180, 230, 115,
  150, 172, 116, 34, 231, 173, 53, 133, 226, 249, 55, 232, 28, 117, 223, 110,
  71, 241, 26, 113, 29, 41, 197, 137, 111, 183, 98, 14, 170, 24, 190, 27,
  252, 86, 62, 75, 198, 210, 121, 32, 154, 219, 192, 254, 120, 205, 90, 244,
  31, 221, 168, 51, 136, 7, 199, 49, 177, 18, 16, 89, 39, 128, 236, 95,
  96, 81, 127, 169, 25, 181, 74, 13, 45, 229, 122, 159, 147, 201, 156, 239,
  160, 224, 59, 77, 174, 42, 245, 176, 200, 235, 187, 60, 131, 83, 153, 97,
  23, 43, 4, 126, 186, 119, 214, 38, 225, 105, 20, 99, 85, 33, 12, 125]

/-- Multiplication by `x` in GF(2^8) modulo the AES polynomial. -/
def xtime (b : Nat) : Nat :=
  if b < 128 then 2 * b else (2 * b) ^^^ 0x11B

/-- GF(2^8) products with the small constants used by (Inv)MixColumns. -/
def gmul2 (b : Nat) : Nat := xtime b

def gmul3 (b : Nat) : Nat := xtime b ^^^ b

def gmul9 (b : Nat) : Nat := xtime (xtime (xtime b)) ^^^ b

def gmul11 (b : Nat) : Nat := xtime (xtime (xtime b)) ^^^ xtime b ^^^ b

def gmul13 (b : Nat) : Nat := xtime (xtime (xtime b)) ^^^ xtime (xtime b) ^^^ b

def gmul14 (b : Nat) : Nat :=
  xtime (xtime (xtime b)) ^^^ xtime (xtime b) ^^^ xtime b

/-- S-box substitution of every state byte. -/
def subBytes (s : List Nat) : List Nat := s.map (fun b => sbox.getD b 0)

/-- Inverse S-box substitution of every state byte. -/
def invSubBytes (s : List Nat) : List Nat := s.map (fun b => invSbox.getD b 0)

/-- ShiftRows on the flat 16-byte state (byte `r + 4c` is row `r`, column `c`). -/
def shiftRows (s : List Nat) : List Nat :=
  [0, 5, 10, 15, 4, 9, 14, 3, 8, 13, 2, 7, 12, 1, 6, 11].map (fun i => s.getD i 0)

/-- InvShiftRows on the flat 16-byte state. -/
def invShiftRows (s : List Nat) : List Nat :=
  [0, 13, 10, 7, 4, 1, 14, 11, 8, 5, 2, 15, 12, 9, 6, 3].map (fun i => s.getD i 0)

/-- MixColumns on one 4-byte column. -/
def mixCol : List Nat → List Nat
  | [a, b, c, d] =>
    [gmul2 a ^^^ gmul3 b ^^^ c ^^^ d,
     a ^^^ gmul2 b ^^^ gmul3 c ^^^ d,
     a ^^^ b ^^^ gmul2 c ^^^ gmul3 d,
     gmul3 a ^^^ b ^^^ c ^^^ gmul2 d]
  | l => l

/-- InvMixColumns on one 4-byte column. -/
def invMixCol : List Nat → List Nat
  | [a, b, c, d] =>
    [gmul14 a ^^^ gmul11 b ^^^ gmul13 c ^^^ gmul9 d,
     gmul9 a ^^^ gmul14 b ^^^ gmul11 c ^^^ gmul13 d,
     gmul13 a ^^^ gmul9 b ^^^ gmul14 c ^^^ gmul11 d,
     gmul11 a ^^^ gmul13 b ^^^ gmul9 c ^^^ gmul14 d]
  | l => l

/-- MixColumns on the flat state. -/
def mixColumns (s : List Nat) : List Nat :=
  mixCol (s.take 4) ++ mixCol (pySlice s 4 4) ++ mixCol (pySlice s 8 4) ++
    mixCol (pySlice s 12 4)

/-- InvMixColumns on the flat state. -/
def invMixColumns (s : List Nat) : List Nat :=
  invMixCol (s.take 4) ++ invMixCol (pySlice s 4 4) ++ invMixCol (pySlice s 8 4) ++
    invMixCol (pySlice s 12 4)

/-- AddRoundKey: XOR the state with a round key. -/
def addRoundKey (s k : List Nat) : List Nat :=
  List.zipWith (fun a b => a ^^^ b) s k

/-- The AES round constants for AES-128 key expansion. -/
def rcon : List Nat := [1, 2, 4, 8, 16, 32, 64, 128, 27, 54]

/-- One key-expansion step: word `i` from words `i-1` and `i-4`. -/
def keyExpWord (i : Nat) (wPrev wBack : List Nat) : List Nat :=
  let t :=
    if i % 4 = 0 then
      let r := wPrev.drop 1 ++ wPrev.take 1
      let r := r.map (fun b => sbox.getD b 0)
      match r with
      | a :: rest => (a ^^^ rcon.getD (i / 4 - 1) 0) :: rest
      | [] => []
    else wPrev
  List.zipWith (fun a b => a ^^^ b) wBack t

/-- Expand words `4..43` of the AES-128 key schedule (`ws` holds words so far,
most recent last; `n` counts the words still to produce). -/
def keyExpGo : Nat → Nat → List (List Nat) → List (List Nat)
  | 0, _, ws => ws
  | n + 1, i, ws =>
    let wPrev := (ws.drop (ws.length - 1)).headD []
    let wBack := (ws.drop (ws.length - 4)).headD []
    keyExpGo n (i + 1) (ws ++ [keyExpWord i wPrev wBack])

/-- The 11 flat 16-byte round keys of AES-128 key expansion. -/
def keyExpansion (key : List Nat) : List (List Nat) :=
  let w0 := [key.take 4, pySlice key 4 4, pySlice key 8 4, pySlice key 12 4]
  let ws := keyExpGo 40 4 w0
  (List.range 11).map (fun r =>
    (ws.getD (4 * r) []) ++ (ws.getD (4 * r + 1) []) ++ (ws.getD (4 * r + 2) []) ++
      (ws.getD (4 * r + 3) []))

/-- The middle encryption rounds `1..9`. -/
def aesEncRounds : Nat → List (List Nat) → List Nat → List Nat
  | 0, _, s => s
  | n + 1, rks, s =>
    let r := 10 - (n + 1)
    aesEncRounds n rks
      (addRoundKey (mixColumns (shiftRows (subBytes s))) (rks.getD r []))

/-- AES-128 encryption of one 16-byte block under expanded round keys. -/
def aesEncBlock (rks : List (List Nat)) (blk : List Nat) : List Nat :=
  let s := addRoundKey blk (rks.getD 0 [])
  let s := aesEncRounds 9 rks s
  addRoundKey (shiftRows (subBytes s)) (rks.getD 10 [])

/-- The middle decryption rounds `9..1`. -/
def aesDecRounds : Nat → List (List Nat) → List Nat → List Nat
  | 0, _, s => s
  | n + 1, rks, s =>
    aesDecRounds n rks
      (invMixColumns (addRoundKey (invSubBytes (invShiftRows s)) (rks.getD (n + 1) [])))

/-- AES-128 decryption of one 16-byte block under expanded round keys. -/
def aesDecBlock (rks : List (List Nat)) (blk : List Nat) : List Nat :=
  let s := addRoundKey blk (rks.getD 10 [])
  let s := aesDecRounds 9 rks s
  addRoundKey (invSubBytes (invShiftRows s)) (rks.getD 0 [])

/-- Apply a block operation to each full 16-byte chunk (`n` counts chunks).
PyCryptodome's ECB `decrypt`/`encrypt` is only ever called on block-aligned
buffers in `decrypt_ncm` (alignment is checked or established beforehand), so
only the aligned case is exercised. -/
def chunk16Go (f : List Nat → List Nat) : Nat → List Nat → List Nat
  | 0, _ => []
  | n + 1, xs => f (xs.take 16) ++ chunk16Go f n (xs.drop 16)

/-- ECB mode: the block operation applied blockwise over the buffer. -/
def ecbMap (f : List Nat → List Nat) (xs : List Nat) : List Nat :=
  chunk16Go f (xs.length / 16) xs

/-! FIPS-197 appendix C.1 check of the AES embedding. -/

/-- The expanded FIPS-197 appendix key `000102...0f`. -/
def fipsRks : List (List Nat) :=
  keyExpansion [0, 1, 2, 3, 4, 5, 6, 7, 8, 9, 10, 11, 12, 13, 14, 15]

theorem aes_fips197_enc :
    aesEncBlock fipsRks
      [0x00, 0x11, 0x22, 0x33, 0x44, 0x55, 0x66, 0x77,
       0x88, 0x99, 0xaa, 0xbb, 0xcc, 0xdd, 0xee, 0xff] =
      [0x69, 0xc4, 0xe0, 0xd8, 0x6a, 0x7b, 0x04, 0x30,
       0xd8, 0xcd, 0xb7, 0x80, 0x70, 0xb4, 0xc5, 0x5a] := by decide

theorem aes_fips197_dec :
    aesDecBlock fipsRks
      [0x69, 0xc4, 0xe0, 0xd8, 0x6a, 0x7b, 0x04, 0x30,
       0xd8, 0xcd, 0xb7, 0x80, 0x70, 0xb4, 0xc5, 0x5a] =
      [0x00, 0x11, 0x22, 0x33, 0x44, 0x55, 0x66, 0x77,
       0x88, 0x99, 0xaa, 0xbb, 0xcc, 0xdd, 0xee, 0xff] := by decide

/-! ## RC4 (PyCryptodome `ARC4.new(key)`)

RC4 decryption XORs the data with the keystream produced by the standard
key-scheduling algorithm followed by the pseudo-random generation algorithm;
encryption and decryption are the same transform. -/

/-- Swap two positions of the RC4 state list. -/
def swapL (s : List Nat) (a b : Nat) : List Nat :=
  (s.set a (s.getD b 0)).set b (s.getD a 0)

/-- RC4 key scheduling: `n` iterations remaining, current index `i`, mixer `j`. -/
def rc4KsaGo (key : List Nat) : Nat → Nat → Nat → List Nat → List Nat
  | 0, _, _, s => s
  | n + 1, i, j, s =>
    let j' := (j + s.getD i 0 + key.getD (i % key.length) 0) % 256
    rc4KsaGo key n (i + 1) j' (swapL s i j')

/-- The RC4 state after key scheduling. -/
def rc4Ksa (key : List Nat) : List Nat :=
  rc4KsaGo key 256 0 0 (List.range 256)

/-- RC4 pseudo-random generation: emit `n` keystream bytes. -/
def rc4PrgaGo : Nat → Nat → Nat → List Nat → List Nat
  | 0, _, _, _ => []
  | n + 1, i, j, s =>
    let i' := (i + 1) % 256
    let j' := (j + s.getD i' 0) % 256
    let s' := swapL s i' j'
    s'.getD ((s'.getD i' 0 + s'.getD j' 0) % 256) 0 :: rc4PrgaGo n i' j' s'

/-- The first `n` RC4 keystream bytes for `key`. -/
def rc4Keystream (key : List Nat) (n : Nat) : List Nat :=
  rc4PrgaGo n 0 0 (rc4Ksa key)

/-- RC4 encryption/decryption: XOR the data with the keystream. -/
def rc4Bytes (key data : List Nat) : List Nat :=
  List.zipWith (fun b k => b ^^^ k) data (rc4Keystream key data.length)

/-- Classic RC4 test vector: key `"Key"`, plaintext `"Plaintext"`. -/
theorem rc4_vector_check :
    rc4Bytes [0x4B, 0x65, 0x79]
      [0x50, 0x6C, 0x61, 0x69, 0x6E, 0x74, 0x65, 0x78, 0x74] =
      [0xBB, 0xF3, 0x16, 0xE8, 0xD9, 0x40, 0xAF, 0x0A, 0xD3] := by decide

/-! ## Base64 decoding (`base64.b64decode`, non-strict mode)

CPython's `binascii.a2b_base64` in its default non-strict mode: characters
outside the alphabet are discarded; a quad completed by `=` padding emits its
bytes and stops the scan; leftover data characters at the end of the input are
an error. -/

/-- The 6-bit value of a base64 alphabet byte, `none` for non-alphabet bytes. -/
def b64Val (c : Nat) : Option Nat :=
  if 65 ≤ c ∧ c ≤ 90 then some (c - 65)
  else if 97 ≤ c ∧ c ≤ 122 then some (c - 97 + 26)
  else if 48 ≤ c ∧ c ≤ 57 then some (c - 48 + 52)
  else if c = 43 then some 62
  else if c = 47 then some 63
  else none

/-- Emit the bytes of a (possibly partial) quad of 6-bit values. -/
def b64Emit : List Nat → List Nat
  | [a, b] => [a * 4 + b / 16]
  | [a, b, c] => [a * 4 + b / 16, b % 16 * 16 + c / 4]
  | [a, b, c, d] => [a * 4 + b / 16, b % 16 * 16 + c / 4, c % 4 * 64 + d]
  | _ => []

/-- The non-strict `a2b_base64` scan: `out` is decoded output so far, `quad`
the 6-bit values of the current quad, `pads` the `=` signs seen since the last
data character. -/
def b64Go : List Nat → List Nat → List Nat → Nat → Option (List Nat)
  | [], out, quad, _ => if quad = [] then some out else none
  | c :: rest, out, quad, pads =>
    if c = 61 then
      if 2 ≤ quad.length ∧ 4 ≤ quad.length + (pads + 1) then
        some (out ++ b64Emit quad)
      else b64Go rest out quad (pads + 1)
    else
      match b64Val c with
      | none => b64Go rest out quad pads
      | some v =>
        let quad' := quad ++ [v]
        if quad'.length = 4 then b64Go rest (out ++ b64Emit quad') [] 0
        else b64Go rest out quad' 0

/-- Python `base64.b64decode(s)` (validate off), `none` on `binascii.Error`. -/
def b64decode (xs : List Nat) : Option (List Nat) :=
  b64Go xs [] [] 0

/-- Standard base64 encoding (used only to build concrete test containers). -/
def b64encChunk : List Nat → List Nat
  | [a] => [a / 4, a % 4 * 16, 64, 64]
  | [a, b] => [a / 4, a % 4 * 16 + b / 16, b % 16 * 4, 64]
  | [a, b, c] => [a / 4, a % 4 * 16 + b / 16, b % 16 * 4 + c / 64, c % 64]
  | _ => []

/-- The base64 alphabet byte for a 6-bit value (`64` encodes the pad `=`). -/
def b64Chr (v : Nat) : Nat :=
  if v < 26 then v + 65
  else if v < 52 then v - 26 + 97
  else if v < 62 then v - 52 + 48
  else if v = 62 then 43
  else if v = 63 then 47
  else 61

/-- Python `base64.b64encode` (fixture for building concrete containers). -/
def b64encode : List Nat → List Nat
  | [] => []
  | [a] => (b64encChunk [a]).map b64Chr
  | [a, b] => (b64encChunk [a, b]).map b64Chr
  | a :: b :: c :: rest => (b64encChunk [a, b, c]).map b64Chr ++ b64encode rest

theorem b64_check :
    b64decode (b64encode [0x7B, 0x7D]) = some [0x7B, 0x7D] ∧
      b64encode [0x7B, 0x7D] = [0x65, 0x33, 0x30, 0x3D] := by decide

/-! ## UTF-8 (`bytes.decode('utf-8')`, strict and `errors='ignore'`) -/

/-- Decode one UTF-8 sequence: the code point and the number of bytes
consumed, `none` on an ill-formed sequence. -/
def utf8DecOne : List Nat → Option (Nat × Nat)
  | [] => none
  | b :: rest =>
    if b < 0x80 then some (b, 1)
    else if 0xC2 ≤ b ∧ b ≤ 0xDF then
      match rest with
      | c1 :: _ =>
        if 0x80 ≤ c1 ∧ c1 ≤ 0xBF then some ((b - 0xC0) * 64 + (c1 - 0x80), 2)
        else none
      | [] => none
    else if 0xE0 ≤ b ∧ b ≤ 0xEF then
      match rest with
      | c1 :: c2 :: _ =>
        let lo1 := if b = 0xE0 then 0xA0 else 0x80
        let hi1 := if b = 0xED then 0x9F else 0xBF
        if lo1 ≤ c1 ∧ c1 ≤ hi1 ∧ 0x80 ≤ c2 ∧ c2 ≤ 0xBF then
          some ((b - 0xE0) * 4096 + (c1 - 0x80) * 64 + (c2 - 0x80), 3)
        else none
      | _ => none
    else if 0xF0 ≤ b ∧ b ≤ 0xF4 then
      match rest with
      | c1 :: c2 :: c3 :: _ =>
        let lo1 := if b = 0xF0 then 0x90 else 0x80
        let hi1 := if b = 0xF4 then 0x8F else 0xBF
        if lo1 ≤ c1 ∧ c1 ≤ hi1 ∧ 0x80 ≤ c2 ∧ c2 ≤ 0xBF ∧ 0x80 ≤ c3 ∧ c3 ≤ 0xBF then
          some ((b - 0xF0) * 262144 + (c1 - 0x80) * 4096 + (c2 - 0x80) * 64 +
            (c3 - 0x80), 4)
        else none
      | _ => none
    else none

/-- Length of the maximal subpart of an ill-formed sequence at the head
(the unit skipped by `errors='ignore'`): the lead byte plus the well-formed
continuation bytes that follow it. -/
def utf8BadLen : List Nat → Nat
  | [] => 1
  | b :: rest =>
    if 0xE0 ≤ b ∧ b ≤ 0xEF then
      match rest with
      | c1 :: _ =>
        let lo1 := if b = 0xE0 then 0xA0 else 0x80
        let hi1 := if b = 0xED then 0x9F else 0xBF
        if lo1 ≤ c1 ∧ c1 ≤ hi1 then 2 else 1
      | [] => 1
    else if 0xF0 ≤ b ∧ b ≤ 0xF4 then
      match rest with
      | c1 :: c2 :: _ =>
        let lo1 := if b = 0xF0 then 0x90 else 0x80
        let hi1 := if b = 0xF4 then 0x8F else 0xBF
        if lo1 ≤ c1 ∧ c1 ≤ hi1 then
          if 0x80 ≤ c2 ∧ c2 ≤ 0xBF then 3 else 2
        else 1
      | [c1] =>
        let lo1 := if b = 0xF0 then 0x90 else 0x80
        let hi1 := if b = 0xF4 then 0x8F else 0xBF
        if lo1 ≤ c1 ∧ c1 ≤ hi1 then 2 else 1
      | [] => 1
    else 1

/-- Strict UTF-8 decoding to code points, with fuel (`fuel ≥ xs.length`). -/
def utf8DecodeGo : Nat → List Nat → Option (List Nat)
  | _, [] => some []
  | 0, _ :: _ => none
  | fuel + 1, b :: rest =>
    match utf8DecOne (b :: rest) with
    | none => none
    | some (cp, k) =>
      (utf8DecodeGo fuel ((b :: rest).drop k)).map (fun cps => cp :: cps)

/-- Python `bytes.decode('utf-8')`: `none` on `UnicodeDecodeError`. -/
def utf8Decode (xs : List Nat) : Option (List Nat) :=
  utf8DecodeGo xs.length xs

/-- Python `bytes.decode('utf-8', errors='ignore')`: ill-formed subparts dropped. -/
def utf8DecIgnoreGo : Nat → List Nat → List Nat
  | _, [] => []
  | 0, _ :: _ => []
  | fuel + 1, b :: rest =>
    match utf8DecOne (b :: rest) with
    | some (cp, k) => cp :: utf8DecIgnoreGo fuel ((b :: rest).drop k)
    | none => utf8DecIgnoreGo fuel ((b :: rest).drop (utf8BadLen (b :: rest)))

/-- Decoding with `errors='ignore'`. -/
def utf8DecodeIgnore (xs : List Nat) : List Nat :=
  utf8DecIgnoreGo xs.length xs

/-- Python `str.encode('utf-8')` on code points. -/
def utf8EncodeChar (cp : Nat) : List Nat :=
  if cp < 0x80 then [cp]
  else if cp < 0x800 then [0xC0 + cp / 64, 0x80 + cp % 64]
  else if cp < 0x10000 then
    [0xE0 + cp / 4096, 0x80 + cp / 64 % 64, 0x80 + cp % 64]
  else [0xF0 + cp / 262144, 0x80 + cp / 4096 % 64, 0x80 + cp / 64 % 64,
    0x80 + cp % 64]

/-- Python `str.encode('utf-8')` over a string of code points. -/
def utf8Encode (cps : List Nat) : List Nat :=
  cps.flatMap utf8EncodeChar

theorem utf8_check :
    utf8Decode [0x7B, 0x22, 0x61, 0x22, 0x7D] = some [0x7B, 0x22, 0x61, 0x22, 0x7D] ∧
      utf8Decode [0xE4, 0xBD, 0xA0] = some [0x4F60] ∧
      utf8Decode [0xFF] = none ∧
      utf8DecodeIgnore [0x41, 0xFF, 0x42] = [0x41, 0x42] := by decide

/-! ## JSON (`json.loads`)

A model of CPython's `json` scanner: objects, arrays, strings with escapes and
surrogate pairs, numbers kept as their lexeme, the literals `true`, `false`,
`null`, and the non-standard `NaN`, `Infinity`, `-Infinity` that `json.loads`
accepts by default.  Duplicate object keys are kept in parse order (the Python
dict keeps the last; no claim inspects duplicates). -/

mutual

inductive JsonVal where
  | jnull : JsonVal
  | jbool : Bool → JsonVal
  | jnum : List Nat → JsonVal
  | jstr : List Nat → JsonVal
  | jarr : JsonElems → JsonVal
  | jobj : JsonMembers → JsonVal
  | jnan : JsonVal
  | jinf : JsonVal
  | jninf : JsonVal
deriving DecidableEq, Repr

/-- The element list of a JSON array. -/
inductive JsonElems where
  | nil : JsonElems
  | cons : JsonVal → JsonElems → JsonElems
deriving DecidableEq, Repr

/-- The key/value member list of a JSON object (keys are code-point strings,
kept in parse order). -/
inductive JsonMembers where
  | nil : JsonMembers
  | cons : List Nat → JsonVal → JsonMembers → JsonMembers
deriving DecidableEq, Repr

end

/-- JSON whitespace skip (space, tab, newline, carriage return). -/
def jskipWs : List Nat → List Nat
  | [] => []
  | c :: t => if c = 32 ∨ c = 9 ∨ c = 10 ∨ c = 13 then jskipWs t else c :: t

/-- The value of a hex digit code point. -/
def hexVal (c : Nat) : Option Nat :=
  if 48 ≤ c ∧ c ≤ 57 then some (c - 48)
  else if 97 ≤ c ∧ c ≤ 102 then some (c - 97 + 10)
  else if 65 ≤ c ∧ c ≤ 70 then some (c - 65 + 10)
  else none

/-- Four hex digits of a `\u` escape. -/
def parseHex4 : List Nat → Option (Nat × List Nat)
  | a :: b :: c :: d :: rest =>
    match hexVal a, hexVal b, hexVal c, hexVal d with
    | some va, some vb, some vc, some vd =>
      some (va * 4096 + vb * 256 + vc * 16 + vd, rest)
    | _, _, _, _ => none
  | _ => none

/-- JSON string contents after the opening quote, with fuel. -/
def jparseStrGo : Nat → List Nat → Option (List Nat × List Nat)
  | 0, _ => none
  | _ + 1, [] => none
  | fuel + 1, c :: t =>
    if c = 34 then some ([], t)
    else if c = 92 then
      match t with
      | [] => none
      | e :: t2 =>
        if e = 117 then
          match parseHex4 t2 with
          | none => none
          | some (u, t3) =>
            if 0xD800 ≤ u ∧ u ≤ 0xDBFF then
              match t3 with
              | 92 :: 117 :: t4 =>
                match parseHex4 t4 with
                | some (u2, t5) =>
                  if 0xDC00 ≤ u2 ∧ u2 ≤ 0xDFFF then
                    (jparseStrGo fuel t5).map (fun p =>
                      ((0x10000 + (u - 0xD800) * 1024 + (u2 - 0xDC00)) :: p.1, p.2))
                  else (jparseStrGo fuel t3).map (fun p => (u :: p.1, p.2))
                | none => (jparseStrGo fuel t3).map (fun p => (u :: p.1, p.2))
              | _ => (jparseStrGo fuel t3).map (fun p => (u :: p.1, p.2))
            else (jparseStrGo fuel t3).map (fun p => (u :: p.1, p.2))
        else
          let esc :=
            if e = 34 then some 34 else if e = 92 then some 92
            else if e = 47 then some 47 else if e = 98 then some 8
            else if e = 102 then some 12 else if e = 110 then some 10
            else if e = 114 then some 13 else if e = 116 then some 9
            else none
          match esc with
          | some v => (jparseStrGo fuel t2).map (fun p => (v :: p.1, p.2))
          | none => none
    else if c < 32 then none
    else (jparseStrGo fuel t).map (fun p => (c :: p.1, p.2))

/-- Maximal run of decimal digits. -/
def jdigits : List Nat → List Nat × List Nat
  | [] => ([], [])
  | c :: t =>
    if 48 ≤ c ∧ c ≤ 57 then
      let p := jdigits t
      (c :: p.1, p.2)
    else ([], c :: t)

/-- The JSON number lexeme `-?(0|[1-9][0-9]*)(\.[0-9]+)?([eE][-+]?[0-9]+)?`. -/
def jparseNum (s : List Nat) : Option (List Nat × List Nat) :=
  let (neg, s1) := match s with
    | 45 :: t => ([45], t)
    | _ => ([], s)
  match s1 with
  | [] => none
  | c :: t =>
    let ipart : Option (List Nat × List Nat) :=
      if c = 48 then some ([48], t)
      else if 49 ≤ c ∧ c ≤ 57 then
        let p := jdigits t
        some (c :: p.1, p.2)
      else none
    match ipart with
    | none => none
    | some (ds, s2) =>
      let (fpart, s3) := match s2 with
        | 46 :: u =>
          match jdigits u with
          | ([], _) => (([] : List Nat), s2)
          | (fs, u') => (46 :: fs, u')
        | _ => ([], s2)
      let (epart, s4) := match s3 with
        | e :: u =>
          if e = 101 ∨ e = 69 then
            match u with
            | sgn :: u' =>
              if sgn = 43 ∨ sgn = 45 then
                match jdigits u' with
                | ([], _) => (([] : List Nat), s3)
                | (es, u'') => (e :: sgn :: es, u'')
              else
                match jdigits u with
                | ([], _) => (([] : List Nat), s3)
                | (es, u'') => (e :: es, u'')
            | [] => ([], s3)
          else ([], s3)
        | [] => ([], s3)
      some (neg ++ ds ++ fpart ++ epart, s4)

mutual

/-- Parse one JSON value (fuel-based; `fuel` bounds the number of nested
parse steps and is decremented at every call, Python's runtime recursion
limit is not modelled). -/
def jparseValue : Nat → List Nat → Option (JsonVal × List Nat)
  | 0, _ => none
  | fuel + 1, s0 =>
    let s := jskipWs s0
    match s with
    | [] => none
    | c :: t =>
      if c = 34 then
        (jparseStrGo (t.length + 1) t).map (fun p => (JsonVal.jstr p.1, p.2))
      else if c = 123 then
        match jskipWs t with
        | 125 :: r => some (JsonVal.jobj JsonMembers.nil, r)
        | t' => (jparseMembers fuel t').map (fun p => (JsonVal.jobj p.1, p.2))
      else if c = 91 then
        match jskipWs t with
        | 93 :: r => some (JsonVal.jarr JsonElems.nil, r)
        | t' => (jparseElems fuel t').map (fun p => (JsonVal.jarr p.1, p.2))
      else if startsWithB [116, 114, 117, 101] s then some (JsonVal.jbool true, s.drop 4)
      else if startsWithB [102, 97, 108, 115, 101] s then some (JsonVal.jbool false, s.drop 5)
      else if startsWithB [110, 117, 108, 108] s then some (JsonVal.jnull, s.drop 4)
      else
        match jparseNum s with
        | some (lex, rest) => some (JsonVal.jnum lex, rest)
        | none =>
          if startsWithB [78, 97, 78] s then some (JsonVal.jnan, s.drop 3)
          else if startsWithB [73, 110, 102, 105, 110, 105, 116, 121] s then
            some (JsonVal.jinf, s.drop 8)
          else if startsWithB [45, 73, 110, 102, 105, 110, 105, 116, 121] s then
            some (JsonVal.jninf, s.drop 9)
          else none

/-- Parse the non-empty member list of a JSON object (positioned at a key). -/
def jparseMembers : Nat → List Nat → Option (JsonMembers × List Nat)
  | 0, _ => none
  | fuel + 1, s =>
    match s with
    | 34 :: t =>
      match jparseStrGo (t.length + 1) t with
      | none => none
      | some (k, r1) =>
        match jskipWs r1 with
        | 58 :: r3 =>
          match jparseValue fuel r3 with
          | none => none
          | some (v, r4) =>
            match jskipWs r4 with
            | 44 :: r6 =>
              (jparseMembers fuel (jskipWs r6)).map (fun p =>
                (JsonMembers.cons k v p.1, p.2))
            | 125 :: r6 => some (JsonMembers.cons k v JsonMembers.nil, r6)
            | _ => none
        | _ => none
    | _ => none

/-- Parse the non-empty element list of a JSON array (positioned at a value). -/
def jparseElems : Nat → List Nat → Option (JsonElems × List Nat)
  | 0, _ => none
  | fuel + 1, s =>
    match jparseValue fuel s with
    | none => none
    | some (v, r1) =>
      match jskipWs r1 with
      | 44 :: r3 =>
        (jparseElems fuel (jskipWs r3)).map (fun p => (JsonElems.cons v p.1, p.2))
      | 93 :: r3 => some (JsonElems.cons v JsonElems.nil, r3)
      | _ => none

end

/-- Python `json.loads` on a string of code points: one value, with surrounding
whitespace, and nothing after it. `none` models `json.JSONDecodeError`. -/
def jsonLoads (cps : List Nat) : Option JsonVal :=
  match jparseValue (cps.length + 1) cps with
  | some (v, rest) => if jskipWs rest = [] then some v else none
  | none => none

theorem json_check :
    jsonLoads [0x7B, 0x7D] = some (JsonVal.jobj JsonMembers.nil) ∧
      jsonLoads [0x35] = some (JsonVal.jnum [0x35]) ∧
      jsonLoads [0x7B, 0x22, 0x61, 0x22, 0x3A, 0x31, 0x7D] =
        some (JsonVal.jobj (JsonMembers.cons [0x61] (JsonVal.jnum [0x31])
          JsonMembers.nil)) ∧
      jsonLoads [0x7B, 0x22, 0x61, 0x22, 0x3A, 0x7D] = none ∧
      jsonLoads [0x35, 0x78] = none := by decide

/-! ## The NCM container decoder (`decrypt_ncm`)

The embedding follows `decrypt_ncm` (source lines 93–335, with `debug=False`
so the debug-only branches are dead) from the point where the file bytes have
been read.  Every `raise` site and every library exception that the
surrounding `try` turns into a decode failure is represented by a typed
error. -/

/-- The failure points of `decrypt_ncm`.  `truncatedInput` is the
`struct.error` raised by `struct.unpack('<I', ...)` on a short slice — the
code's counterpart of the spec's Byte-Cursor `TruncatedInput`.  The spec's
`NotAContainer` is the `ValueError("Not a valid NCM file")` at line 101,
`invalidKeyHeader` the `ValueError` at line 216, `emptyKey` the one at
line 223; `base64Error`, `unpadError`, `utf8Error` and `jsonError` are the
metadata-stage library failures, and `rc4KeyError` the `ValueError` from
`ARC4.new` on a key length outside PyCryptodome's accepted `5..256` bytes. -/
inductive NcmError where
  | notValidNcm : NcmError
  | truncatedInput : NcmError
  | invalidKeyHeader : NcmError
  | emptyKey : NcmError
  | base64Error : NcmError
  | unpadError : NcmError
  | utf8Error : NcmError
  | jsonError : NcmError
  | rc4KeyError : NcmError
deriving DecidableEq, Repr

/-- The constant `MAGIC_HEADER = b'CTENFDAM'`. -/
def MAGIC_HEADER : List Nat := [67, 84, 69, 78, 70, 68, 65, 77]

/-- The constant `AES_KEY = b'hzHRAmso5kInbaxW'`. -/
def AES_KEY : List Nat :=
  [104, 122, 72, 82, 65, 109, 115, 111, 53, 107, 73, 110, 98, 97, 120, 87]

/-- The constant `META_XOR_KEY = 0x63`. -/
def META_XOR_KEY : Nat := 0x63

/-- The constant `KEY_XOR_KEY = 0x64`. -/
def KEY_XOR_KEY : Nat := 0x64

/-- The constant `HEADER = b'neteasecloudmusic'` (the fixed 17-byte marker). -/
def HEADER : List Nat :=
  [110, 101, 116, 101, 97, 115, 101, 99, 108, 111, 117, 100, 109, 117, 115,
   105, 99]

/-- The AES-128 round keys expanded from the fixed `AES_KEY`. -/
def ncmRks : List (List Nat) := keyExpansion AES_KEY

/-- PyCryptodome `AES.new(AES_KEY, AES.MODE_ECB).decrypt` on a block-aligned buffer. -/
def aesEcbDecNcm : List Nat → List Nat := ecbMap (aesDecBlock ncmRks)

/-- PyCryptodome `AES.new(AES_KEY, AES.MODE_ECB).encrypt` (fixture for building inputs). -/
def aesEcbEncNcm : List Nat → List Nat := ecbMap (aesEncBlock ncmRks)

/-- Python `struct.unpack('<I', data[off:off+4])[0]`: little-endian u32, failing with
the `struct.error` (here `truncatedInput`) when fewer than 4 bytes remain. -/
def readU32 (data : List Nat) (off : Nat) : Except NcmError Nat :=
  if off + 4 ≤ data.length then
    .ok (data.getD off 0 + 256 * data.getD (off + 1) 0 +
      65536 * data.getD (off + 2) 0 + 16777216 * data.getD (off + 3) 0)
  else .error .truncatedInput

/-! ### Key Unlock (source lines 113–223)

All stages below take the block-cipher buffer decryption as an explicit
function argument `bd`, instantiated with `aesEcbDecNcm` for the program
itself; theorems quantified over `bd` therefore hold independently of the
cipher. -/

/-- Padding strategy 1 (line 119): standard PKCS#7-style padding to the next
16-byte boundary when misaligned, otherwise unchanged. -/
def padStrategyA (d : List Nat) : List Nat :=
  if d.length % 16 ≠ 0 then
    d ++ List.replicate (16 - d.length % 16) (16 - d.length % 16)
  else d

/-- Padding strategy 2 (line 121): `ljust` zero-padding to the next 16-byte
boundary. -/
def padStrategyB (d : List Nat) : List Nat :=
  d ++ List.replicate ((d.length + 15) / 16 * 16 - d.length) 0

/-- Padding strategy 3 (line 123): no padding. -/
def padStrategyC (d : List Nat) : List Nat := d

/-- Line 137's acceptance check on a candidate decryption: the marker occurs
in it, or it keeps at least 16 bytes after `bytes.strip(b'\x00')` (which
strips zero bytes at BOTH ends). -/
def acceptKey (t : List Nat) : Bool :=
  (findSub HEADER t).isSome || decide (16 ≤ (strip0 t).length)

/-- The strategy loop of lines 126–145: try each padding in order, skip
misaligned candidates (`continue`), decrypt, and accept the first candidate
that satisfies `acceptKey`. -/
def tryStrategies (bd : List Nat → List Nat) :
    List (List Nat → List Nat) → List Nat → Option (List Nat)
  | [], _ => none
  | f :: fs, ek =>
    if (f ek).length % 16 = 0 then
      if acceptKey (bd (f ek)) then some (bd (f ek))
      else tryStrategies bd fs ek
    else tryStrategies bd fs ek

/-- The three ordered padding strategies applied to the XOR-unmasked key. -/
def keyStrategyLoop (bd : List Nat → List Nat) (ek : List Nat) : Option (List Nat) :=
  tryStrategies bd [padStrategyA, padStrategyB, padStrategyC] ek

/-- Lines 148–151 and (verbatim again) lines 255–259: pad-byte-equals-pad-
length padding to the next 16-byte boundary, no-op when already aligned
(`padding_length != 16`). -/
def padTo16 (ek : List Nat) : List Nat :=
  let pl := 16 - ek.length % 16
  if pl ≠ 16 then ek ++ List.replicate pl pl else ek

/-- Lines 147–154: when no strategy was accepted, unconditionally re-pad with
pad-byte-equals-pad-length padding and decrypt, with no further check. -/
def decryptedKeyStage (bd : List Nat → List Nat) (ek : List Nat) : List Nat :=
  match keyStrategyLoop bd ek with
  | some k => k
  | none => bd (padTo16 ek)

/-- Python `key.decode('latin-1', errors='ignore')` (line 174): latin-1 maps byte
`b` to code point `b` bijectively and never fails, so on this byte-per-byte
model the reinterpretation is the identity. -/
def latin1Decode (xs : List Nat) : List Nat := xs

/-- The step-(iv) loop of lines 193–200: for `padding` in `0..7`, search for
the marker preceded by that many zero bytes, stripping through the padded
marker on a hit. -/
def searchPadGo (key1 : List Nat) : List Nat → Option (List Nat)
  | [] => none
  | p :: ps =>
    match findSub (List.replicate p 0 ++ HEADER) key1 with
    | some pos => some (key1.drop (pos + p + HEADER.length))
    | none => searchPadGo key1 ps

/-- The fallback marker search of lines 163–216, entered when the plaintext
does not start with the marker: (i) marker at any offset; (ii) marker in the
latin-1 string reinterpretation; (iii) marker followed by one zero byte;
(iv) marker preceded by 0–7 zero bytes; (v) the zero-stripped plaintext
verbatim when at least 16 bytes long, else `invalidKeyHeader`. -/
def searchMarker (key1 : List Nat) : Except NcmError (List Nat) :=
  match findSub HEADER key1 with
  | some i => .ok (key1.drop (i + HEADER.length))
  | none =>
    match findSub HEADER (latin1Decode key1) with
    | some p => .ok (key1.drop (p + HEADER.length))
    | none =>
      match findSub (HEADER ++ [0]) key1 with
      | some p => .ok (key1.drop (p + (HEADER ++ [0]).length))
      | none =>
        match searchPadGo key1 [0, 1, 2, 3, 4, 5, 6, 7] with
        | some k => .ok k
        | none =>
          if 16 ≤ (lstrip0 key1).length then .ok (lstrip0 key1)
          else .error .invalidKeyHeader

/-- Lines 158–223 on the decrypted key: strip leading zeros; when the result
starts with the marker the code keeps it UNCHANGED (the marker is not
stripped — only the fallback searches strip it); otherwise run the fallback
marker search; finally strip trailing zeros and fail with `emptyKey` when
nothing remains. -/
def headerFinish (dk : List Nat) : Except NcmError (List Nat) :=
  match (if startsWithB HEADER (lstrip0 dk) then Except.ok (lstrip0 dk)
         else searchMarker (lstrip0 dk)) with
  | .error e => .error e
  | .ok k =>
    if rstrip0 k = [] then .error .emptyKey else .ok (rstrip0 k)

/-- Key Unlock: XOR-unmask (line 114), strategy decryption, marker handling. -/
def keyUnlockWith (bd : List Nat → List Nat) (ek : List Nat) :
    Except NcmError (List Nat) :=
  headerFinish (decryptedKeyStage bd (xorMask KEY_XOR_KEY ek))

/-- Key Unlock of the program (AES instantiation). -/
def keyUnlock : List Nat → Except NcmError (List Nat) :=
  keyUnlockWith aesEcbDecNcm

/-! ### Metadata Unlock (source lines 226–287) -/

/-- Lines 240–248: `base64.b64decode`, retried once after appending `=` up to
a multiple of four on failure; a second failure is fatal. -/
def b64Stage (m1 : List Nat) : Except NcmError (List Nat) :=
  match b64decode m1 with
  | some r => .ok r
  | none =>
    match b64decode (if m1.length % 4 ≠ 0 then
        m1 ++ List.replicate (4 - m1.length % 4) 61
      else m1) with
    | some r => .ok r
    | none => .error .base64Error

/-- PyCryptodome `Crypto.Util.Padding.unpad(data, 16)`: `none` on any of its
`ValueError` conditions. -/
def pkcs7Unpad (xs : List Nat) : Option (List Nat) :=
  if xs.length = 0 then none
  else if xs.length % 16 ≠ 0 then none
  else
    let p := xs.getLastD 0
    if p < 1 ∨ min 16 xs.length < p then none
    else if xs.drop (xs.length - p) = List.replicate p p then
      some (xs.take (xs.length - p))
    else none

/-- Python `meta_str.rfind('}')`: index of the last `}` code point. -/
def rfindBrace (cps : List Nat) : Option Nat :=
  match findSub [125] cps.reverse with
  | some k => some (cps.length - 1 - k)
  | none => none

/-- Lines 270–282: `unpad`, and on its failure the recovery heuristic that
decodes the plaintext with `errors='ignore'`, truncates at the last `}`, and
re-encodes; the padding error propagates when no `}` exists. -/
def unpadStage (m4 : List Nat) : Except NcmError (List Nat) :=
  match pkcs7Unpad m4 with
  | some p => .ok p
  | none =>
    match rfindBrace (utf8DecodeIgnore m4) with
    | some j => .ok (utf8Encode ((utf8DecodeIgnore m4).take (j + 1)))
    | none => .error .unpadError

/-- Metadata Unlock: XOR-unmask (line 234), base64, block alignment padding
(lines 255–259), ECB decryption, unpadding, UTF-8 decoding, JSON parsing. -/
def metaUnlockWith (bd : List Nat → List Nat) (em : List Nat) :
    Except NcmError JsonVal :=
  match b64Stage (xorMask META_XOR_KEY em) with
  | .error e => .error e
  | .ok m2 =>
    match unpadStage (bd (padTo16 m2)) with
    | .error e => .error e
    | .ok m5 =>
      match utf8Decode m5 with
      | none => .error .utf8Error
      | some cps =>
        match jsonLoads cps with
        | none => .error .jsonError
        | some v => .ok v

/-- Metadata Unlock of the program (AES instantiation). -/
def metaUnlock : List Nat → Except NcmError JsonVal :=
  metaUnlockWith aesEcbDecNcm

/-! ### Container decoding (source lines 93–332) -/

/-- Everything `decrypt_ncm` establishes on success: the recovered stream
cipher key, the parsed metadata, the encrypted audio region
(`data[offset:]` after the cover-skip arithmetic), and the decrypted audio. -/
structure NcmResult where
  key : List Nat
  meta : JsonVal
  audioEnc : List Nat
  audio : List Nat
deriving DecidableEq, Repr

/-- Function `decrypt_ncm` from the magic check onwards, parameterized by the block
cipher decryption `bd` and the stream cipher `rc`: magic check (line 100),
key length and key box (106–111), Key Unlock, metadata length and box
(226–231), Metadata Unlock, CRC skip and cover-skip arithmetic (290–294),
and RC4 audio decryption (297–305). `ARC4.new` accepts keys of 5–256 bytes
(PyCryptodome `key_size`); anything else is a `ValueError`. -/
def decodeCoreWith (bd : List Nat → List Nat)
    (rc : List Nat → List Nat → List Nat) (data : List Nat) :
    Except NcmError NcmResult :=
  if startsWithB MAGIC_HEADER data then
    match readU32 data 8 with
    | .error e => .error e
    | .ok keyLen =>
      match keyUnlockWith bd (pySlice data 12 keyLen) with
      | .error e => .error e
      | .ok key =>
        match readU32 data (12 + keyLen) with
        | .error e => .error e
        | .ok metaLen =>
          match metaUnlockWith bd (pySlice data (16 + keyLen) metaLen) with
          | .error e => .error e
          | .ok meta =>
            match readU32 data (16 + keyLen + metaLen + 4 + 5) with
            | .error e => .error e
            | .ok imageSize =>
              if 5 ≤ key.length ∧ key.length ≤ 256 then
                .ok ⟨key, meta,
                  data.drop (16 + keyLen + metaLen + 4 + 9 + imageSize),
                  rc key (data.drop (16 + keyLen + metaLen + 4 + 9 + imageSize))⟩
              else .error .rc4KeyError
  else .error .notValidNcm

/-- The program's decoder: AES-128-ECB under `AES_KEY` and RC4. -/
def decodeCore : List Nat → Except NcmError NcmResult :=
  decodeCoreWith aesEcbDecNcm rc4Bytes

/-- Function `decrypt_ncm`'s interface: the `(audio, metadata)` pair or a typed
failure (the source wraps every failure into one `Exception`; the typed
error here records which failure point produced it). -/
def decrypt_ncm (data : List Nat) : Except NcmError (List Nat × JsonVal) :=
  (decodeCore data).map (fun r => (r.audio, r.meta))

instance instDecEqExcept {α β : Type} [DecidableEq α] [DecidableEq β] :
    DecidableEq (Except α β) := fun a b =>
  match a, b with
  | .error x, .error y =>
    if h : x = y then isTrue (by rw [h])
    else isFalse (fun hh => by cases hh; exact h rfl)
  | .ok x, .ok y =>
    if h : x = y then isTrue (by rw [h])
    else isFalse (fun hh => by cases hh; exact h rfl)
  | .error _, .ok _ => isFalse (fun hh => by cases hh)
  | .ok _, .error _ => isFalse (fun hh => by cases hh)

/-! ## Concrete fixtures used by the claim theorems and witnesses -/

/-- The bytes `b"ABCDEFGHIJKLMNOP"`: the 16 key bytes of the synthetic key box. -/
def keyABC : List Nat :=
  [65, 66, 67, 68, 69, 70, 71, 72, 73, 74, 75, 76, 77, 78, 79, 80]

/-- The synthetic key box: the marker followed by `keyABC`, zero-padded to a
16-byte multiple, ECB-encrypted under `AES_KEY`, then XOR-masked (stored as
its byte value; `kb5_spec` verifies the construction). -/
def kb5 : List Nat :=
  [44, 206, 213, 235, 105, 234, 251, 20, 85, 13, 69, 191, 97, 221, 23, 29,
   69, 197, 172, 218, 165, 134, 200, 199, 162, 156, 141, 218, 92, 96, 204,
   111, 167, 47, 109, 156, 154, 5, 180, 44, 5, 222, 244, 40, 196, 55, 92,
   131]

/-- Fixture `kb5` is exactly the XOR-masked ECB encryption of the marker followed by
`keyABC`, zero-padded to a 16-byte multiple. -/
theorem kb5_spec :
    kb5 = xorMask KEY_XOR_KEY
      (aesEcbEncNcm (HEADER ++ keyABC ++ List.replicate 15 0)) := by decide

/-- A metadata box holding the JSON object `{}` (PKCS#7-padded, encrypted,
base64-encoded, XOR-masked; `mbEmpty_spec` verifies the construction). -/
def mbEmpty : List Nat :=
  [37, 33, 0, 33, 50, 38, 19, 46, 17, 6, 26, 4, 38, 19, 2, 18, 52, 0, 59,
   50, 43, 4, 94, 94]

/-- Fixture `mbEmpty` is exactly the XOR-masked base64 encoding of the ECB-encrypted,
PKCS#7-padded JSON text `{}`. -/
theorem mbEmpty_spec :
    mbEmpty = xorMask META_XOR_KEY
      (b64encode (aesEcbEncNcm ([0x7B, 0x7D] ++ List.replicate 14 14))) := by
  decide

/-- The stream-cipher key the program recovers from `kb5` (the marker is not
stripped in the canonical branch). -/
def sampleKey : List Nat := HEADER ++ keyABC

/-- A 3-byte audio plaintext, `b"ID3"`. -/
def sampleAudio : List Nat := [73, 68, 51]

/-- The bytes of `sampleAudio` RC4-encrypted under `sampleKey`. -/
def sampleAudioEnc : List Nat := [23, 114, 156]

/-- A complete well-formed container: magic, 48-byte key box, 24-byte
metadata box, 4-byte CRC, 5 unspecified bytes, zero cover length, audio. -/
def sampleData : List Nat :=
  MAGIC_HEADER ++ [48, 0, 0, 0] ++ kb5 ++ [24, 0, 0, 0] ++ mbEmpty ++
    List.replicate 4 0 ++ List.replicate 5 0 ++ [0, 0, 0, 0] ++ sampleAudioEnc

/-- A container whose declared cover-image length (1000) exceeds the zero
bytes that remain after the length field. -/
def sampleTrunc : List Nat :=
  MAGIC_HEADER ++ [48, 0, 0, 0] ++ kb5 ++ [24, 0, 0, 0] ++ mbEmpty ++
    List.replicate 4 0 ++ List.replicate 5 0 ++ [232, 3, 0, 0]

/-- A container declaring a 5-byte key box with zero bytes remaining. -/
def c1Data : List Nat := MAGIC_HEADER ++ [5, 0, 0, 0]

/-- A 16-byte plaintext with no leading zero, one trailing zero and no
marker: kept whole by leading-zero stripping but reduced to 15 bytes by
two-sided stripping. -/
def p3 : List Nat := List.replicate 15 1 ++ [0]

/-- The ECB encryption of `p3`: a block-aligned key-box candidate whose
decryption is `p3` (`ek3_spec` verifies the construction). -/
def ek3 : List Nat :=
  [105, 100, 146, 208, 54, 205, 90, 233, 129, 210, 53, 144, 192, 207, 198,
   191]

/-- Fixture `ek3` is exactly the ECB encryption of `p3`. -/
theorem ek3_spec : ek3 = aesEcbEncNcm p3 := by decide

/-- A metadata box holding `{"musicName":5}` — a present field of the wrong
type (number, not string); `mb8_spec` verifies the construction. -/
def mb8 : List Nat :=
  [4, 49, 4, 8, 32, 36, 16, 72, 36, 72, 26, 22, 57, 27, 43, 27, 0, 86, 48,
   8, 17, 4, 94, 94]

/-- Fixture `mb8` is exactly the XOR-masked base64 encoding of the ECB encryption of
the JSON text `{"musicName":5}` PKCS#7-padded with one byte. -/
theorem mb8_spec :
    mb8 = xorMask META_XOR_KEY
      (b64encode (aesEcbEncNcm
        ([123, 34, 109, 117, 115, 105, 99, 78, 97, 109, 101, 34, 58, 53,
          125] ++ [1]))) := by decide

/-! ## Shared helper lemmas -/

/-- XOR-masking twice with the same mask is the identity. -/
theorem xorMask_involutive (m : Nat) (xs : List Nat) :
    xorMask m (xorMask m xs) = xs := by
  induction xs with
  | nil => rfl
  | cons a t ih =>
    simp only [xorMask, List.map_cons, List.map_map] at ih ⊢
    rw [Function.comp_def, Nat.xor_cancel_right]
    exact congrArg (a :: ·) ih

/-! ## Claim C7 -/

/-- Claim C7: for every byte sequence `x` and each of the two fixed
single-byte XOR masks (the key-box mask `0x64` and the metadata-box mask
`0x63`), applying the XOR-mask transform twice yields `x` again. -/
theorem c7_xor_masks_self_inverse (xs : List Nat) :
    xorMask KEY_XOR_KEY (xorMask KEY_XOR_KEY xs) = xs ∧
      xorMask META_XOR_KEY (xorMask META_XOR_KEY xs) = xs :=
  ⟨xorMask_involutive KEY_XOR_KEY xs, xorMask_involutive META_XOR_KEY xs⟩

/-! ## Claim C9 -/

/-- Claim C9: for every input byte buffer, `decrypt_ncm` terminates and
resolves either to a successful `(audio, metadata)` pair or to one of the
typed decode errors — the embedding is a total function into
`Except NcmError`, so no input produces anything outside that set. -/
theorem c9_decode_total (data : List Nat) :
    (∃ p, decrypt_ncm data = Except.ok p) ∨
      (∃ e, decrypt_ncm data = Except.error e) := by
  cases h : decrypt_ncm data with
  | ok p => exact Or.inl ⟨p, rfl⟩
  | error e => exact Or.inr ⟨e, rfl⟩

/-! ## Claim C2 -/

/-- Claim C2: for every buffer shorter than 8 bytes or whose first 8 bytes
differ from `MAGIC_HEADER`, decoding fails with the not-a-container error —
and this holds for EVERY choice of block-cipher and stream-cipher function,
so the result is independent of the ciphers: no cipher operation can
influence (or be needed for) this rejection. -/
theorem c2_magic_rejected_before_ciphers (bd : List Nat → List Nat)
    (rc : List Nat → List Nat → List Nat) (data : List Nat)
    (h : data.length < 8 ∨ data.take 8 ≠ MAGIC_HEADER) :
    decodeCoreWith bd rc data = Except.error NcmError.notValidNcm := by
  have hne : data.take 8 ≠ MAGIC_HEADER := by
    rcases h with h | h
    · intro heq
      have hl := congrArg List.length heq
      rw [List.length_take] at hl
      simp only [MAGIC_HEADER, List.length_cons, List.length_nil] at hl
      omega
    · exact h
  have hb : startsWithB MAGIC_HEADER data = false := by
    simp only [startsWithB, decide_eq_false_iff_not]
    exact hne
  simp [decodeCoreWith, hb]

/-- Witness for claim C2 at the concrete buffer `[0, 0]` and concrete
(identity) cipher functions. -/
theorem c2_witness :
    (([0, 0] : List Nat).length < 8 ∨
        ([0, 0] : List Nat).take 8 ≠ MAGIC_HEADER) ∧
      decodeCoreWith (fun x => x) (fun _ x => x) [0, 0] =
        Except.error NcmError.notValidNcm :=
  ⟨Or.inl (by decide),
    c2_magic_rejected_before_ciphers _ _ _ (Or.inl (by decide))⟩

/-! ## Claim C5 -/

/-- Claim C5 (code bug): on the synthetic key box `kb5` built exactly as the
claim prescribes, Key Unlock does NOT recover `"ABCDEFGHIJKLMNOP"`; it
returns the 17-byte marker still glued to the front of the key, because the
canonical marker-at-offset-0 branch of the source never strips the marker
(every fallback branch does).  The spec's intent — strip the marker — is
what interoperates with the real container format. -/
theorem c5_marker_not_stripped :
    keyUnlock kb5 = Except.ok (HEADER ++ keyABC) ∧
      HEADER ++ keyABC ≠ keyABC := by
  exact ⟨by decide, by decide⟩

/-! ## Claim C1 -/

/-- Claim C1 counterexample: `c1Data` declares a 5-byte key box with zero
bytes remaining after the length field, yet decoding fails with the
invalid-key-header error (key recovery ran on the silently truncated, empty
key box), not with a truncated-input error at the key box. -/
theorem c1_counterexample :
    readU32 c1Data 8 = Except.ok 5 ∧ c1Data.length = 12 ∧
      decodeCore c1Data = Except.error NcmError.invalidKeyHeader ∧
      decodeCore c1Data ≠ Except.error NcmError.truncatedInput := by
  refine ⟨by decide, by decide, by decide, by decide⟩

/-- Claim C1 amended: an oversized declared key-box length never fails at the
key box itself — the slice is silently truncated and key recovery runs on it;
decoding then fails with the truncation error at the NEXT length-field read
when key recovery succeeds, or with the key-recovery error otherwise.  An
oversized declared cover-image length never produces a truncation error at
all: the audio region is empty and decoding proceeds (succeeding whenever the
recovered key has an RC4-acceptable length). -/
theorem c1_amended :
    (∀ (data : List Nat) (klen : Nat),
        startsWithB MAGIC_HEADER data = true →
        readU32 data 8 = Except.ok klen →
        data.length < 12 + klen →
        decodeCore data =
          match keyUnlock (pySlice data 12 klen) with
          | Except.ok _ => Except.error NcmError.truncatedInput
          | Except.error e => Except.error e) ∧
    (∀ (data : List Nat) (klen mlen imgSz : Nat) (key : List Nat)
        (meta : JsonVal),
        startsWithB MAGIC_HEADER data = true →
        readU32 data 8 = Except.ok klen →
        keyUnlock (pySlice data 12 klen) = Except.ok key →
        readU32 data (12 + klen) = Except.ok mlen →
        metaUnlock (pySlice data (16 + klen) mlen) = Except.ok meta →
        readU32 data (16 + klen + mlen + 4 + 5) = Except.ok imgSz →
        data.length ≤ 16 + klen + mlen + 4 + 9 + imgSz →
        decodeCore data =
          if 5 ≤ key.length ∧ key.length ≤ 256 then
            Except.ok ⟨key, meta, [], []⟩
          else Except.error NcmError.rc4KeyError) := by
  constructor
  · intro data klen h1 h2 h3
    have hr : readU32 data (12 + klen) = Except.error NcmError.truncatedInput := by
      unfold readU32
      rw [if_neg]
      omega
    simp only [decodeCore, decodeCoreWith, keyUnlock, h1, if_true, h2]
    cases hk : keyUnlockWith aesEcbDecNcm (pySlice data 12 klen) with
    | ok key => simp [hr]
    | error e => simp
  · intro data klen mlen imgSz key meta h1 h2 hk h4 hm h6 h7
    have hdrop : data.drop (16 + klen + mlen + 4 + 9 + imgSz) = [] :=
      List.drop_eq_nil_of_le (by omega)
    simp only [decodeCore, decodeCoreWith, keyUnlock, metaUnlock] at hk hm ⊢
    simp only [h1, if_true, h2, hk, h4, hm, h6]
    rw [hdrop]
    simp [rc4Bytes]

/-- Witness for claim C1 amended: the key-half at `c1Data`, the cover-half at
`sampleTrunc` (a well-formed container whose declared cover length 1000
overruns the buffer — decoding succeeds with empty audio). -/
theorem c1_witness :
    (decodeCore c1Data =
      match keyUnlock (pySlice c1Data 12 5) with
      | Except.ok _ => Except.error NcmError.truncatedInput
      | Except.error e => Except.error e) ∧
      decodeCore sampleTrunc =
        (if 5 ≤ sampleKey.length ∧ sampleKey.length ≤ 256 then
          Except.ok ⟨sampleKey, JsonVal.jobj JsonMembers.nil, [], []⟩
        else Except.error NcmError.rc4KeyError) := by
  constructor
  · exact c1_amended.1 c1Data 5 (by decide) (by decide) (by decide)
  · exact c1_amended.2 sampleTrunc 48 24 1000 sampleKey
      (JsonVal.jobj JsonMembers.nil) (by decide) (by decide) (by decide)
      (by decide) (by decide) (by decide) (by decide)

/-! ## Claim C10 -/

/-- The fallback marker search can only fail with `invalidKeyHeader`. -/
theorem searchMarker_error_eq (k : List Nat) (e : NcmError)
    (h : searchMarker k = Except.error e) : e = NcmError.invalidKeyHeader := by
  unfold searchMarker at h
  repeat' split at h
  all_goals first
    | exact Except.noConfusion h
    | (injection h with h'; exact h'.symm)

/-- Function `headerFinish` can only fail with `invalidKeyHeader` or `emptyKey`. -/
theorem headerFinish_error (dk : List Nat) (e : NcmError)
    (h : headerFinish dk = Except.error e) :
    e = NcmError.invalidKeyHeader ∨ e = NcmError.emptyKey := by
  unfold headerFinish at h
  split at h
  next e' heq =>
    injection h with h'
    subst h'
    split at heq
    · exact Except.noConfusion heq
    · exact Or.inl (searchMarker_error_eq _ _ heq)
  next k heq =>
    split at h
    · injection h with h'
      exact Or.inr h'.symm
    · exact Except.noConfusion h

/-- Claim C10: when none of the three padding strategies is accepted, the
key-decryption stage unconditionally re-pads with pad-byte-equals-pad-length
padding and decrypts, with no marker or minimum-length check; the stage is a
total function (it never fails), so every key-recovery failure is reported
from the later marker-search or empty-key checks — the only errors Key
Unlock can return are `invalidKeyHeader` and `emptyKey`. -/
theorem c10_fallback_and_error_sources :
    (∀ (bd : List Nat → List Nat) (ek : List Nat),
        keyStrategyLoop bd ek = none →
        decryptedKeyStage bd ek = bd (padTo16 ek)) ∧
    (∀ (bd : List Nat → List Nat) (ek : List Nat) (e : NcmError),
        keyUnlockWith bd ek = Except.error e →
        e = NcmError.invalidKeyHeader ∨ e = NcmError.emptyKey) := by
  constructor
  · intro bd ek h
    unfold decryptedKeyStage
    rw [h]
  · intro bd ek e h
    exact headerFinish_error _ _ h

/-- Witness for claim C10 at the empty key box: no strategy is accepted, the
fallback runs, and Key Unlock reports `invalidKeyHeader`. -/
theorem c10_witness :
    keyStrategyLoop aesEcbDecNcm [] = none ∧
      decryptedKeyStage aesEcbDecNcm [] = aesEcbDecNcm (padTo16 []) ∧
      keyUnlockWith aesEcbDecNcm [] = Except.error NcmError.invalidKeyHeader ∧
      (NcmError.invalidKeyHeader = NcmError.invalidKeyHeader ∨
        NcmError.invalidKeyHeader = NcmError.emptyKey) :=
  ⟨by decide, c10_fallback_and_error_sources.1 aesEcbDecNcm [] (by decide),
    by decide,
    c10_fallback_and_error_sources.2 aesEcbDecNcm [] NcmError.invalidKeyHeader
      (by decide)⟩

/-! ## Claim C6 -/

/-- The PRGA emits exactly the requested number of keystream bytes. -/
theorem rc4PrgaGo_length (n : Nat) :
    ∀ (i j : Nat) (s : List Nat), (rc4PrgaGo n i j s).length = n := by
  induction n with
  | zero => intro i j s; rfl
  | succ n ih => intro i j s; simp [rc4PrgaGo, ih]

/-- The keystream has the requested length. -/
theorem rc4Keystream_length (key : List Nat) (n : Nat) :
    (rc4Keystream key n).length = n := by
  simp [rc4Keystream, rc4PrgaGo_length]

/-- Pointwise XOR with the same list twice is the identity (when the list is
long enough). -/
theorem zipWith_xor_cancel :
    ∀ (xs ks : List Nat), xs.length ≤ ks.length →
      List.zipWith (fun b k => b ^^^ k)
        (List.zipWith (fun b k => b ^^^ k) xs ks) ks = xs := by
  intro xs
  induction xs with
  | nil => intro ks _; rfl
  | cons a t ih =>
    intro ks hk
    cases ks with
    | nil => simp at hk
    | cons k kt =>
      simp only [List.zipWith_cons_cons]
      rw [Nat.xor_cancel_right]
      exact congrArg (a :: ·) (ih kt (by simpa using hk))

/-- Auxiliary: zipWith of equal-length lists has that length. -/
theorem zipWith_len_aux :
    ∀ (xs ks : List Nat), ks.length = xs.length →
      (List.zipWith (fun b k => b ^^^ k) xs ks).length = xs.length := by
  intro xs
  induction xs with
  | nil => intro ks _; rfl
  | cons a t ih =>
    intro ks hk
    cases ks with
    | nil => simp at hk
    | cons k kt =>
      simp only [List.zipWith_cons_cons, List.length_cons]
      exact congrArg (· + 1) (ih kt (by simpa using hk))

/-- Length of an RC4 transform equals the data length. -/
theorem rc4Bytes_length (key xs : List Nat) :
    (rc4Bytes key xs).length = xs.length := by
  unfold rc4Bytes
  exact zipWith_len_aux xs (rc4Keystream key xs.length)
    (rc4Keystream_length key xs.length)

/-- RC4 is self-inverse at identical keystream position. -/
theorem rc4Bytes_involutive (key xs : List Nat) :
    rc4Bytes key (rc4Bytes key xs) = xs := by
  show List.zipWith (fun b k => b ^^^ k) (rc4Bytes key xs)
    (rc4Keystream key (rc4Bytes key xs).length) = xs
  rw [rc4Bytes_length key xs]
  show List.zipWith (fun b k => b ^^^ k)
    (List.zipWith (fun b k => b ^^^ k) xs (rc4Keystream key xs.length))
    (rc4Keystream key xs.length) = xs
  exact zipWith_xor_cancel xs (rc4Keystream key xs.length)
    (le_of_eq (rc4Keystream_length key xs.length).symm)

/-- A successful decode stores the RC4 transform of the encrypted audio
region as the audio. -/
theorem decodeCore_audio_eq (data : List Nat) (r : NcmResult)
    (h : decodeCore data = Except.ok r) :
    r.audio = rc4Bytes r.key r.audioEnc := by
  unfold decodeCore decodeCoreWith at h
  repeat' split at h
  all_goals try exact Except.noConfusion h
  injection h with h'
  subst h'
  rfl

/-- Claim C6: for every container that decodes successfully, re-encrypting
the returned audio with a fresh RC4 stream initialized from the recovered
key reproduces the container's encrypted audio region bit-for-bit; the RC4
transform is self-inverse at identical keystream position for every key and
byte sequence. -/
theorem c6_rc4_roundtrip :
    (∀ (data : List Nat) (r : NcmResult),
        decodeCore data = Except.ok r →
        rc4Bytes r.key r.audio = r.audioEnc) ∧
    (∀ key xs : List Nat, rc4Bytes key (rc4Bytes key xs) = xs) := by
  constructor
  · intro data r h
    rw [decodeCore_audio_eq data r h, rc4Bytes_involutive]
  · exact fun key xs => rc4Bytes_involutive key xs

/-- Witness for claim C6: the concrete container `sampleData` decodes
successfully and re-encrypting its audio reproduces its encrypted region. -/
theorem c6_witness :
    decodeCore sampleData =
        Except.ok ⟨sampleKey, JsonVal.jobj JsonMembers.nil, sampleAudioEnc,
          sampleAudio⟩ ∧
      rc4Bytes sampleKey sampleAudio = sampleAudioEnc := by
  have h : decodeCore sampleData =
      Except.ok ⟨sampleKey, JsonVal.jobj JsonMembers.nil, sampleAudioEnc,
        sampleAudio⟩ := by decide
  exact ⟨h, c6_rc4_roundtrip.1 sampleData _ h⟩

/-! ## Claim C3 -/

/-- Modelled from the claim's words (C3): acceptance that checks the marker
or a minimum length after stripping LEADING zero bytes only — to be compared
with the source's `acceptKey`, which strips both ends (`bytes.strip`). -/
def acceptKeyClaim (t : List Nat) : Bool :=
  (findSub HEADER t).isSome || decide (16 ≤ (lstrip0 t).length)

/-- Modelled from the claim's words (C3): the strategy loop with the claim's
acceptance predicate, otherwise identical to `tryStrategies`. -/
def tryStrategiesClaim (bd : List Nat → List Nat) :
    List (List Nat → List Nat) → List Nat → Option (List Nat)
  | [], _ => none
  | f :: fs, ek =>
    if (f ek).length % 16 = 0 then
      if acceptKeyClaim (bd (f ek)) then some (bd (f ek))
      else tryStrategiesClaim bd fs ek
    else tryStrategiesClaim bd fs ek

/-- Modelled from the claim's words (C3): the ordered padding strategies with
the claim's acceptance predicate. -/
def keyStrategyLoopClaim (bd : List Nat → List Nat) (ek : List Nat) :
    Option (List Nat) :=
  tryStrategiesClaim bd [padStrategyA, padStrategyB, padStrategyC] ek

/-- Claim C3 counterexample: `ek3` decrypts (under every candidate) to `p3`,
which has no marker, 16 bytes after stripping leading zeros, but only 15
after the code's two-sided strip.  The claim's loop accepts candidate (a)
with output `p3`; the code's loop accepts nothing. -/
theorem c3_counterexample :
    keyStrategyLoop aesEcbDecNcm ek3 = none ∧
      keyStrategyLoopClaim aesEcbDecNcm ek3 = some p3 ∧
      aesEcbDecNcm (padStrategyA ek3) = p3 ∧
      acceptKeyClaim p3 = true ∧
      acceptKey p3 = false := by decide

/-- The declarative form of the strategy loop: the first candidate, in the
order (a), (b), (c), that is block-aligned and whose decryption satisfies
the source's acceptance predicate. -/
def firstAccepted (bd : List Nat → List Nat) (ek : List Nat) :
    Option (List Nat) :=
  (([padStrategyA ek, padStrategyB ek, padStrategyC ek].filter
      (fun c => decide (c.length % 16 = 0) && acceptKey (bd c))).head?).map bd

/-- Claim C3 amended: block alignment is attempted in the order
(a) pad-byte-equals-pad-length padding, (b) zero padding, (c) no padding,
and the accepted candidate is the first aligned one whose ECB decryption
either contains the 17-byte marker or keeps at least 16 bytes after
stripping zero bytes from BOTH ends (the source uses `bytes.strip`, not a
leading-only strip). -/
theorem c3_amended (bd : List Nat → List Nat) (ek : List Nat) :
    keyStrategyLoop bd ek = firstAccepted bd ek := by
  unfold keyStrategyLoop firstAccepted
  by_cases h1 : (padStrategyA ek).length % 16 = 0 <;>
    by_cases h3 : (padStrategyB ek).length % 16 = 0 <;>
      by_cases h5 : (padStrategyC ek).length % 16 = 0 <;>
        cases h2 : acceptKey (bd (padStrategyA ek)) <;>
          cases h4 : acceptKey (bd (padStrategyB ek)) <;>
            cases h6 : acceptKey (bd (padStrategyC ek)) <;>
              simp [tryStrategies, h1, h2, h3, h4, h5, h6, List.filter]

/-! ## Claim C4 -/

/-- Function `findSubGo` finds nothing exactly when the pattern occurs at no offset. -/
theorem findSubGo_none_iff (pat : List Nat) (hp : pat ≠ []) :
    ∀ (xs : List Nat) (i : Nat),
      (findSubGo pat xs i = none ↔
        ∀ j, (xs.drop j).take pat.length ≠ pat) := by
  intro xs
  induction xs with
  | nil =>
    intro i
    rw [show findSubGo pat [] i = none from by simp [findSubGo, hp]]
    constructor
    · intro _ j
      simp only [List.drop_nil, List.take_nil]
      exact fun hc => hp hc.symm
    · intro _; rfl
  | cons x t ih =>
    intro i
    by_cases hhead : (x :: t).take pat.length = pat
    · rw [show findSubGo pat (x :: t) i = some i from by
        simp [findSubGo, hhead]]
      constructor
      · intro hc; exact Option.noConfusion hc
      · intro hall; exact absurd hhead (by simpa using hall 0)
    · rw [show findSubGo pat (x :: t) i = findSubGo pat t (i + 1) from by
        simp [findSubGo, hhead]]
      rw [ih (i + 1)]
      constructor
      · intro hall j
        cases j with
        | zero => simpa using hhead
        | succ j => simpa using hall j
      · intro hall j
        have := hall (j + 1)
        simpa using this

/-- Function `findSub` finds nothing exactly when the pattern occurs at no offset. -/
theorem findSub_none_iff (pat xs : List Nat) (hp : pat ≠ []) :
    findSub pat xs = none ↔ ∀ j, (xs.drop j).take pat.length ≠ pat :=
  findSubGo_none_iff pat hp xs 0

/-- When a pattern occurs nowhere, neither does any extension of it. -/
theorem findSub_ext_none (pat ext xs : List Nat) (hp : pat ≠ [])
    (h : findSub pat xs = none) : findSub (pat ++ ext) xs = none := by
  have hPne : pat ++ ext ≠ [] := fun hc => hp (List.append_eq_nil.mp hc).1
  rw [findSub_none_iff _ _ hPne]
  intro j hcontr
  have hc := congrArg (List.take pat.length) hcontr
  rw [List.take_take, List.length_append,
    Nat.min_eq_left (Nat.le_add_right _ _), List.take_left] at hc
  exact absurd hc ((findSub_none_iff pat xs hp).mp h j)

/-- When a pattern occurs nowhere, neither does any left extension of it. -/
theorem findSub_pre_none (pre pat xs : List Nat) (hp : pat ≠ [])
    (h : findSub pat xs = none) : findSub (pre ++ pat) xs = none := by
  have hPne : pre ++ pat ≠ [] := fun hc => hp (List.append_eq_nil.mp hc).2
  rw [findSub_none_iff _ _ hPne]
  intro j hcontr
  have hc := congrArg (List.drop pre.length) hcontr
  rw [List.drop_take, List.length_append, Nat.add_sub_cancel_left,
    List.drop_left, List.drop_drop] at hc
  exact absurd hc ((findSub_none_iff pat xs hp).mp h (j + pre.length))

/-- Claim C4: the fallback marker search first looks for the marker at any
byte offset; the later steps — the single-byte-string reinterpretation, the
marker-plus-zero-terminator search, and the zero-prefixed searches — can
never fire when step (i) failed (each would imply an occurrence step (i)
already excludes), so the search's result is: strip through the first
occurrence of the marker when one exists, otherwise use the zero-stripped
plaintext verbatim when it has at least 16 bytes, and raise the
invalid-key-header error only when that minimum-length fallback fails. -/
theorem c4_marker_search (key1 : List Nat) :
    (searchMarker key1 =
      match findSub HEADER key1 with
      | some i => Except.ok (key1.drop (i + HEADER.length))
      | none =>
        if 16 ≤ (lstrip0 key1).length then Except.ok (lstrip0 key1)
        else Except.error NcmError.invalidKeyHeader) ∧
    (findSub HEADER key1 = none →
      findSub (HEADER ++ [0]) key1 = none ∧
      ∀ p : Nat, findSub (List.replicate p 0 ++ HEADER) key1 = none) := by
  have hH : HEADER ≠ [] := by decide
  constructor
  · cases h : findSub HEADER key1 with
    | some i => simp [searchMarker, h]
    | none =>
      have hpre : ∀ p : Nat,
          findSub (List.replicate p 0 ++ HEADER) key1 = none :=
        fun p => findSub_pre_none _ _ _ hH h
      have hext : findSub (HEADER ++ [0]) key1 = none :=
        findSub_ext_none _ _ _ hH h
      have hp1 : findSub (0 :: HEADER) key1 = none := by simpa using hpre 1
      have hp2 : findSub (0 :: 0 :: HEADER) key1 = none := by
        simpa using hpre 2
      have hp3 : findSub (0 :: 0 :: 0 :: HEADER) key1 = none := by
        simpa using hpre 3
      have hp4 : findSub (0 :: 0 :: 0 :: 0 :: HEADER) key1 = none := by
        simpa using hpre 4
      have hp5 : findSub (0 :: 0 :: 0 :: 0 :: 0 :: HEADER) key1 = none := by
        simpa using hpre 5
      have hp6 : findSub (0 :: 0 :: 0 :: 0 :: 0 :: 0 :: HEADER) key1 =
          none := by simpa using hpre 6
      have hp7 : findSub (0 :: 0 :: 0 :: 0 :: 0 :: 0 :: 0 :: HEADER) key1 =
          none := by simpa using hpre 7
      simp [searchMarker, h, latin1Decode, hext, searchPadGo, hp1, hp2, hp3,
        hp4, hp5, hp6, hp7]
  · intro h
    exact ⟨findSub_ext_none _ _ _ hH h,
      fun p => findSub_pre_none _ _ _ hH h⟩

/-- Witness for claim C4 at a 16-byte marker-free plaintext: the search
returns it verbatim, and the subsumption facts hold there. -/
theorem c4_witness :
    (searchMarker (List.replicate 16 1) =
      match findSub HEADER (List.replicate 16 1) with
      | some i => Except.ok ((List.replicate 16 1).drop (i + HEADER.length))
      | none =>
        if 16 ≤ (lstrip0 (List.replicate 16 1)).length then
          Except.ok (lstrip0 (List.replicate 16 1))
        else Except.error NcmError.invalidKeyHeader) ∧
      findSub (HEADER ++ [0]) (List.replicate 16 1) = none ∧
      findSub (List.replicate 3 0 ++ HEADER) (List.replicate 16 1) = none :=
  ⟨(c4_marker_search (List.replicate 16 1)).1,
    ((c4_marker_search (List.replicate 16 1)).2 (by decide)).1,
    ((c4_marker_search (List.replicate 16 1)).2 (by decide)).2 3⟩

/-! ## Claim C8 -/

/-- The base64 stage can only fail with `base64Error`. -/
theorem b64Stage_error (m : List Nat) (e : NcmError)
    (h : b64Stage m = Except.error e) : e = NcmError.base64Error := by
  unfold b64Stage at h
  repeat' split at h
  all_goals first
    | exact Except.noConfusion h
    | (injection h with h'; exact h'.symm)

/-- The unpad stage can only fail with `unpadError`. -/
theorem unpadStage_error (m : List Nat) (e : NcmError)
    (h : unpadStage m = Except.error e) : e = NcmError.unpadError := by
  unfold unpadStage at h
  repeat' split at h
  all_goals first
    | exact Except.noConfusion h
    | (injection h with h'; exact h'.symm)

/-- Claim C8 counterexample: a metadata box whose plaintext is the JSON
`{"musicName":5}` — the `musicName` field is present with the wrong type
(a number, not a string) — decodes successfully; no metadata-parse failure
occurs.  `decrypt_ncm` performs no field-type validation at all: only a
plaintext that fails UTF-8 decoding or JSON parsing is rejected. -/
theorem c8_counterexample :
    metaUnlock mb8 =
      Except.ok (JsonVal.jobj (JsonMembers.cons
        [109, 117, 115, 105, 99, 78, 97, 109, 101] (JsonVal.jnum [53])
        JsonMembers.nil)) := by decide

/-- Claim C8 amended: whenever the unpadded metadata plaintext UTF-8-decodes
and parses as JSON, Metadata Unlock succeeds with exactly the parsed value —
missing, unknown and wrong-typed fields never cause a failure — and every
Metadata Unlock failure is one of the base64, unpad, UTF-8 or JSON errors
(there is no field-type error). -/
theorem c8_amended :
    (∀ (bd : List Nat → List Nat) (em m2 m5 cps : List Nat) (v : JsonVal),
        b64Stage (xorMask META_XOR_KEY em) = Except.ok m2 →
        unpadStage (bd (padTo16 m2)) = Except.ok m5 →
        utf8Decode m5 = some cps →
        jsonLoads cps = some v →
        metaUnlockWith bd em = Except.ok v) ∧
    (∀ (bd : List Nat → List Nat) (em : List Nat) (e : NcmError),
        metaUnlockWith bd em = Except.error e →
        e = NcmError.base64Error ∨ e = NcmError.unpadError ∨
          e = NcmError.utf8Error ∨ e = NcmError.jsonError) := by
  constructor
  · intro bd em m2 m5 cps v h1 h2 h3 h4
    simp [metaUnlockWith, h1, h2, h3, h4]
  · intro bd em e h
    unfold metaUnlockWith at h
    split at h
    next e' heq =>
      injection h with h'
      subst h'
      exact Or.inl (b64Stage_error _ _ heq)
    next m2 heq =>
      split at h
      next e' heq2 =>
        injection h with h'
        subst h'
        exact Or.inr (Or.inl (unpadStage_error _ _ heq2))
      next m5 heq2 =>
        split at h
        next heq3 =>
          injection h with h'
          subst h'
          exact Or.inr (Or.inr (Or.inl rfl))
        next cps heq3 =>
          split at h
          next heq4 =>
            injection h with h'
            subst h'
            exact Or.inr (Or.inr (Or.inr rfl))
          next v heq4 => exact Except.noConfusion h

/-- Witness for claim C8 amended: the wrong-typed-field box `mb8` succeeds
through the stage pipeline, and the empty metadata box fails with the unpad
error — one of the four permitted error kinds. -/
theorem c8_witness :
    metaUnlockWith aesEcbDecNcm mb8 =
        Except.ok (JsonVal.jobj (JsonMembers.cons
          [109, 117, 115, 105, 99, 78, 97, 109, 101] (JsonVal.jnum [53])
          JsonMembers.nil)) ∧
      metaUnlockWith aesEcbDecNcm [] = Except.error NcmError.unpadError ∧
      (NcmError.unpadError = NcmError.base64Error ∨
        NcmError.unpadError = NcmError.unpadError ∨
        NcmError.unpadError = NcmError.utf8Error ∨
        NcmError.unpadError = NcmError.jsonError) :=
  ⟨c8_amended.1 aesEcbDecNcm mb8
      [129, 24, 36, 8, 107, 62, 27, 236, 174, 103, 17, 241, 115, 148, 164,
       174]
      [123, 34, 109, 117, 115, 105, 99, 78, 97, 109, 101, 34, 58, 53, 125]
      [123, 34, 109, 117, 115, 105, 99, 78, 97, 109, 101, 34, 58, 53, 125]
      (JsonVal.jobj (JsonMembers.cons
        [109, 117, 115, 105, 99, 78, 97, 109, 101] (JsonVal.jnum [53])
        JsonMembers.nil))
      (by decide) (by decide) (by decide) (by decide),
    by decide,
    c8_amended.2 aesEcbDecNcm [] NcmError.unpadError (by decide)⟩

end Ncm2Mp3
